import Mathlib

/-!
Verification of the warehouse-shipping MILP core (src/MILP.py).

The embedding models the optimization core of the application:
the problem data collected by the input tabs, the PuLP model built on the
Optimize click (decision variables, objective, supply and demand
constraints), and the interpretation of the solver answer into the
result table and total cost.  Costs and solver-assigned variable values
are modelled as exact rationals; capacities and demands are the
non-negative integers produced by the numeric input widgets.
-/

namespace MILP

/-- The problem data the optimization core receives: the warehouse list with
capacities, the customer list with demands, and the dense cost matrix
(`costs = \x7b(w, c): float(edited_df.loc[w, c]) ...\x7d`, line 64). -/
structure Problem where
  warehouses : List String
  capacity : String → ℕ
  customers : List String
  demand : String → ℕ
  costs : String → String → ℚ

/-- The (warehouse, customer) pairs, listed in the nesting order of the
source's double loops (`for w in warehouses: for c in customers:`). -/
def Problem.pairs (p : Problem) : List (String × String) :=
  p.warehouses.flatMap (fun w => p.customers.map (fun c => (w, c)))

/-- The two comparison senses used by the source: `<=` on line 83 and `==`
on line 85. -/
inductive Sense where
  | le : Sense
  | eq : Sense
deriving DecidableEq

/-- One linear constraint added by `prob +=`: a sum of decision variables
(each with coefficient 1, as in `pulp.lpSum(x[w][c] for ...)`) compared to a
constant right-hand side. -/
structure LinConstraint where
  lhs : List (String × String)
  sense : Sense
  rhs : ℚ
deriving DecidableEq

/-- The built PuLP model: problem name and sense, the decision-variable
index set with its shared bounds and category (`LpVariable.dicts("x", ...,
lowBound=0, cat="Integer")`, line 76), the objective terms, and the
constraint list. -/
structure Model where
  probName : String
  objSense : String
  vars : List (String × String)
  varLowBound : ℚ
  varUpBound : Option ℚ
  varCat : String
  objective : List ((String × String) × ℚ)
  constraints : List LinConstraint

/-- Model construction, lines 75-85 of src/MILP.py: one variable per
(warehouse, customer) pair, objective `Σ costs[(w,c)] * x[w][c]`, a `<=`
capacity constraint per warehouse and an `==` demand constraint per
customer. -/
def buildModel (p : Problem) : Model :=
  { probName := "Warehouse_Shipping_MILP"
    objSense := "Minimize"
    vars := p.pairs
    varLowBound := 0
    varUpBound := none
    varCat := "Integer"
    objective := p.pairs.map (fun wc => (wc, p.costs wc.1 wc.2))
    constraints :=
      p.warehouses.map
        (fun w => ⟨p.customers.map (fun c => (w, c)), Sense.le, (p.capacity w : ℚ)⟩)
      ++ p.customers.map
        (fun c => ⟨p.warehouses.map (fun w => (w, c)), Sense.eq, (p.demand c : ℚ)⟩) }

/-- A solver-side assignment of a numeric value to each decision variable,
as read back by `pulp.value(x[w][c])`. -/
def Assignment : Type := String → String → ℚ

/-- The left-hand side of a constraint evaluated at an assignment. -/
def conLHS (val : Assignment) (con : LinConstraint) : ℚ :=
  (con.lhs.map (fun wc => val wc.1 wc.2)).sum

/-- Whether an assignment satisfies one constraint. -/
def conHolds (val : Assignment) (con : LinConstraint) : Prop :=
  match con.sense with
  | Sense.le => conLHS val con ≤ con.rhs
  | Sense.eq => conLHS val con = con.rhs

/-- An assignment satisfies a model when every variable respects its lower
bound and (for category Integer) integrality, and every constraint holds. -/
def Satisfies (m : Model) (val : Assignment) : Prop :=
  (∀ wc ∈ m.vars,
      m.varLowBound ≤ val wc.1 wc.2 ∧
      (m.varCat = "Integer" → ∃ n : ℤ, val wc.1 wc.2 = (n : ℚ))) ∧
  (∀ con ∈ m.constraints, conHolds val con)

/-- Feasibility of a model: some assignment satisfies it. -/
def ModelSat (m : Model) : Prop :=
  ∃ val : Assignment, Satisfies m val

/-- The objective expression evaluated at an assignment, as
`pulp.value(prob.objective)` computes it (line 108). -/
def objEval (m : Model) (val : Assignment) : ℚ :=
  (m.objective.map (fun t => t.2 * val t.1.1 t.1.2)).sum

/-- Python's `int()` applied to a rational: truncation toward zero. -/
def pyInt (q : ℚ) : ℤ :=
  if 0 ≤ q then ⌊q⌋ else ⌈q⌉

/-- One row of the result table built on lines 99-105. -/
structure ShipRecord where
  warehouse : String
  customer : String
  unitsShipped : ℤ
  unitCost : ℚ
  lineCost : ℚ
deriving DecidableEq

/-- The row the loop body produces for one (warehouse, customer) pair:
`shipped = int(pulp.value(x[w][c]))`, appended only `if shipped > 0`
(lines 97-105). -/
def rowRecord (p : Problem) (val : Assignment) (wc : String × String) :
    Option ShipRecord :=
  let shipped := pyInt (val wc.1 wc.2)
  if 0 < shipped then
    some ⟨wc.1, wc.2, shipped, p.costs wc.1 wc.2,
          (shipped : ℚ) * p.costs wc.1 wc.2⟩
  else none

/-- `result_data`, lines 94-105: the rows collected over all pairs in loop
order. -/
def resultData (p : Problem) (val : Assignment) : List ShipRecord :=
  p.pairs.filterMap (rowRecord p val)

/-- `total_cost = pulp.value(prob.objective)`, line 108. -/
def totalCost (p : Problem) (val : Assignment) : ℚ :=
  objEval (buildModel p) val

/-- The status check of lines 93-120: only when the mapped status string is
"Optimal" are variable values read and a plan produced; otherwise no plan. -/
def interpret (p : Problem) (status : String) (val : Assignment) :
    Option (List ShipRecord × ℚ) :=
  if status = "Optimal" then some (resultData p val, totalCost p val)
  else none

/-- What the Optimize click handler displays: the success path (result table
plus total-cost metric), the non-optimal warning, or the caught-exception
error banner. -/
inductive UIOutcome where
  | optimalShown : List ShipRecord → ℚ → UIOutcome
  | warningShown : String → UIOutcome
  | errorShown : String → UIOutcome
deriving DecidableEq

/-- The body of the `try`/`except` of lines 72-122.  The fallible build,
submit and solve steps are modelled by an `Except` input: an exception with
its message, or the mapped solver status together with the assignment read
back.  The `except` arm is line 122: `st.error(f"⚠️ Error: \x7bstr(e)\x7d")`. -/
def optimizeClick (p : Problem)
    (solverRun : Except String (String × Assignment)) : UIOutcome :=
  match solverRun with
  | Except.error e => UIOutcome.errorShown ("⚠️ Error: " ++ e)
  | Except.ok sv =>
      match interpret p sv.1 sv.2 with
      | some rc => UIOutcome.optimalShown rc.1 rc.2
      | none => UIOutcome.warningShown "Solver did not find an optimal solution."

/-- A solver answer is adequate for this model class when it reports either
Optimal or Infeasible, and reports Optimal exactly when the model is
feasible (the CBC branch-and-bound contract for a bounded minimization with
a bounded-below feasible set). -/
def solverStatusOk (m : Model) (status : String) : Prop :=
  (status = "Optimal" ∨ status = "Infeasible") ∧
  (status = "Optimal" ↔ ModelSat m)

/-- Total capacity over the warehouse list. -/
def totalCapacity (p : Problem) : ℚ :=
  (p.warehouses.map (fun w => (p.capacity w : ℚ))).sum

/-- Total demand over the customer list. -/
def totalDemand (p : Problem) : ℚ :=
  (p.customers.map (fun c => (p.demand c : ℚ))).sum

/-- Modelled from the widget contract of `st.number_input(...,
min_value=..., max_value=...)` (lines 33 and 47): the returned count is the
user's entry kept within the given bounds. -/
def numberInput (lo hi v : ℤ) : ℤ :=
  max lo (min v hi)

/-- The problem instance assembled by the input tabs, lines 31-64: entity
counts from `number_input` with bounds 1 and 10, one named entity per loop
index, capacities, demands and costs keyed by name. -/
def problemFromUI (uw uc : ℤ) (wname cname : ℕ → String)
    (cap dem : String → ℕ) (cost : String → String → ℚ) : Problem :=
  { warehouses := (List.range (numberInput 1 10 uw).toNat).map wname
    customers := (List.range (numberInput 1 10 uc).toNat).map cname
    capacity := cap
    demand := dem
    costs := cost }

/-! ## Helper lemmas -/

theorem sum_map_le_sum_map {α : Type} (l : List α) (f g : α → ℚ)
    (h : ∀ a ∈ l, f a ≤ g a) : (l.map f).sum ≤ (l.map g).sum := by
  induction l with
  | nil => simp
  | cons a t ih =>
      simp only [List.map_cons, List.sum_cons]
      have h1 : f a ≤ g a := h a (List.mem_cons_self a t)
      have h2 : (t.map f).sum ≤ (t.map g).sum :=
        ih (fun b hb => h b (List.mem_cons_of_mem a hb))
      linarith

theorem sum_map_add_q {α : Type} (l : List α) (f g : α → ℚ) :
    (l.map (fun a => f a + g a)).sum = (l.map f).sum + (l.map g).sum := by
  induction l with
  | nil => simp
  | cons a t ih => simp [ih]; ring

theorem sum_swap_q (W C : List String) (f : String → String → ℚ) :
    (W.map (fun w => (C.map (fun c => f w c)).sum)).sum =
    (C.map (fun c => (W.map (fun w => f w c)).sum)).sum := by
  induction W with
  | nil => simp
  | cons w t ih =>
      simp only [List.map_cons, List.sum_cons, ih, sum_map_add_q]

theorem pairs_length (p : Problem) :
    p.pairs.length = p.warehouses.length * p.customers.length := by
  unfold Problem.pairs
  induction p.warehouses with
  | nil => simp
  | cons w t ih => simp [ih, Nat.succ_mul, Nat.add_comm]

/-- Feasibility of the built model forces total demand to be at most total
capacity: sum the supply rows, sum the demand rows, and exchange the two
summations. -/
theorem modelSat_demand_le_capacity (p : Problem)
    (h : ModelSat (buildModel p)) : totalDemand p ≤ totalCapacity p := by
  obtain ⟨val, _, hcon⟩ := h
  have hsup : ∀ w ∈ p.warehouses,
      (p.customers.map (fun c => val w c)).sum ≤ (p.capacity w : ℚ) := by
    intro w hw
    have hmem : (⟨p.customers.map (fun c => (w, c)), Sense.le,
        (p.capacity w : ℚ)⟩ : LinConstraint) ∈ (buildModel p).constraints := by
      unfold buildModel
      exact List.mem_append_left _ (List.mem_map.mpr ⟨w, hw, rfl⟩)
    have := hcon _ hmem
    simpa [conHolds, conLHS, List.map_map, Function.comp] using this
  have hdem : ∀ c ∈ p.customers,
      (p.warehouses.map (fun w => val w c)).sum = (p.demand c : ℚ) := by
    intro c hc
    have hmem : (⟨p.warehouses.map (fun w => (w, c)), Sense.eq,
        (p.demand c : ℚ)⟩ : LinConstraint) ∈ (buildModel p).constraints := by
      unfold buildModel
      exact List.mem_append_right _ (List.mem_map.mpr ⟨c, hc, rfl⟩)
    have := hcon _ hmem
    simpa [conHolds, conLHS, List.map_map, Function.comp] using this
  have h1 : (p.warehouses.map (fun w => (p.customers.map
      (fun c => val w c)).sum)).sum ≤ totalCapacity p :=
    sum_map_le_sum_map _ _ _ hsup
  have h2 : (p.customers.map (fun c => (p.warehouses.map
      (fun w => val w c)).sum)).sum = totalDemand p := by
    unfold totalDemand
    exact congrArg List.sum (List.map_congr_left hdem)
  calc totalDemand p
      = (p.warehouses.map (fun w => (p.customers.map
          (fun c => val w c)).sum)).sum := by rw [← h2, sum_swap_q]
    _ ≤ totalCapacity p := h1

theorem pairs_mem (p : Problem) (w c : String) :
    (w, c) ∈ p.pairs ↔ w ∈ p.warehouses ∧ c ∈ p.customers := by
  unfold Problem.pairs
  simp only [List.mem_flatMap, List.mem_map, Prod.mk.injEq]
  constructor
  · rintro ⟨w0, hw0, c0, hc0, hwc⟩
    exact ⟨hwc.1 ▸ hw0, hwc.2 ▸ hc0⟩
  · rintro ⟨hw, hc⟩
    exact ⟨w, hw, c, hc, rfl, rfl⟩

theorem nodup_pair_table (W C : List String) (hW : W.Nodup) (hC : C.Nodup) :
    (W.flatMap (fun w => C.map (fun c => (w, c)))).Nodup := by
  induction W with
  | nil => simp
  | cons w t ih =>
      have hw : w ∉ t := (List.nodup_cons.mp hW).1
      have ht : t.Nodup := (List.nodup_cons.mp hW).2
      simp only [List.flatMap_cons]
      refine List.Nodup.append ?_ (ih ht) ?_
      · exact hC.map (fun a b hab => ((Prod.mk.injEq _ _ _ _).mp hab).2)
      · intro x hx1 hx2
        obtain ⟨c0, _, hx1e⟩ := List.mem_map.mp hx1
        obtain ⟨w1, hw1, hx2m⟩ := List.mem_flatMap.mp hx2
        obtain ⟨c1, _, hx2e⟩ := List.mem_map.mp hx2m
        rw [← hx1e] at hx2e
        cases hx2e
        exact hw hw1

theorem pairs_nodup (p : Problem) (hW : p.warehouses.Nodup)
    (hC : p.customers.Nodup) : p.pairs.Nodup :=
  nodup_pair_table p.warehouses p.customers hW hC

/-- C1: for every problem instance, the built model contains, for each
warehouse w, a `≤`-constraint whose satisfaction is exactly
Σ over customers c of x[w][c] ≤ capacity(w), and, for each customer c, an
`=`-constraint whose satisfaction is exactly
Σ over warehouses w of x[w][c] = demand(c). -/
theorem buildModel_has_supply_and_demand_constraints (p : Problem)
    (w c : String) (hw : w ∈ p.warehouses) (hc : c ∈ p.customers) :
    (∃ con ∈ (buildModel p).constraints,
        con.sense = Sense.le ∧ con.rhs = (p.capacity w : ℚ) ∧
        ∀ val : Assignment,
          (conHolds val con ↔
            (p.customers.map (fun c2 => val w c2)).sum ≤ (p.capacity w : ℚ))) ∧
    (∃ con ∈ (buildModel p).constraints,
        con.sense = Sense.eq ∧ con.rhs = (p.demand c : ℚ) ∧
        ∀ val : Assignment,
          (conHolds val con ↔
            (p.warehouses.map (fun w2 => val w2 c)).sum = (p.demand c : ℚ))) := by
  constructor
  · refine ⟨⟨p.customers.map (fun c2 => (w, c2)), Sense.le, (p.capacity w : ℚ)⟩,
      ?_, rfl, rfl, ?_⟩
    · unfold buildModel
      exact List.mem_append_left _ (List.mem_map.mpr ⟨w, hw, rfl⟩)
    · intro val
      simp [conHolds, conLHS, List.map_map, Function.comp_def]
  · refine ⟨⟨p.warehouses.map (fun w2 => (w2, c)), Sense.eq, (p.demand c : ℚ)⟩,
      ?_, rfl, rfl, ?_⟩
    · unfold buildModel
      exact List.mem_append_right _ (List.mem_map.mpr ⟨c, hc, rfl⟩)
    · intro val
      simp [conHolds, conLHS, List.map_map, Function.comp_def]

/-- Concrete instance for the constraint-shape claim: the two-warehouse,
two-customer default scenario. -/
def pDefault : Problem :=
  { warehouses := ["W1", "W2"]
    capacity := fun _ => 100
    customers := ["C1", "C2"]
    demand := fun _ => 80
    costs := fun _ _ => 4 }

/-- Witness for C1 at the default two-by-two instance. -/
theorem buildModel_has_supply_and_demand_constraints_witness :
    (∃ con ∈ (buildModel pDefault).constraints,
        con.sense = Sense.le ∧ con.rhs = (pDefault.capacity "W1" : ℚ) ∧
        ∀ val : Assignment,
          (conHolds val con ↔
            (pDefault.customers.map (fun c2 => val "W1" c2)).sum ≤
              (pDefault.capacity "W1" : ℚ))) ∧
    (∃ con ∈ (buildModel pDefault).constraints,
        con.sense = Sense.eq ∧ con.rhs = (pDefault.demand "C1" : ℚ) ∧
        ∀ val : Assignment,
          (conHolds val con ↔
            (pDefault.warehouses.map (fun w2 => val w2 "C1")).sum =
              (pDefault.demand "C1" : ℚ))) :=
  buildModel_has_supply_and_demand_constraints pDefault "W1" "C1"
    (by decide) (by decide)

/-- C2: for every problem instance with distinct entity names, the built
model has exactly one decision variable per (warehouse, customer) pair, all
integer with lower bound 0 and no upper bound, the sense is minimization,
and the objective evaluates to Σ cost(w,c) * x[w][c]. -/
theorem buildModel_vars_and_objective (p : Problem)
    (hW : p.warehouses.Nodup) (hC : p.customers.Nodup) :
    (∀ w c, ((w, c) ∈ (buildModel p).vars ↔
        w ∈ p.warehouses ∧ c ∈ p.customers)) ∧
    (buildModel p).vars.Nodup ∧
    (buildModel p).varCat = "Integer" ∧
    (buildModel p).varLowBound = 0 ∧
    (buildModel p).varUpBound = none ∧
    (buildModel p).objSense = "Minimize" ∧
    (∀ val : Assignment,
      objEval (buildModel p) val =
        (p.pairs.map (fun wc => p.costs wc.1 wc.2 * val wc.1 wc.2)).sum) := by
  refine ⟨fun w c => pairs_mem p w c, pairs_nodup p hW hC, rfl, rfl, rfl, rfl, ?_⟩
  intro val
  simp [objEval, buildModel, List.map_map, Function.comp_def, mul_comm]

/-- Witness for C2 at the default two-by-two instance. -/
theorem buildModel_vars_and_objective_witness :
    (∀ w c, ((w, c) ∈ (buildModel pDefault).vars ↔
        w ∈ pDefault.warehouses ∧ c ∈ pDefault.customers)) ∧
    (buildModel pDefault).vars.Nodup ∧
    (buildModel pDefault).varCat = "Integer" ∧
    (buildModel pDefault).varLowBound = 0 ∧
    (buildModel pDefault).varUpBound = none ∧
    (buildModel pDefault).objSense = "Minimize" ∧
    (∀ val : Assignment,
      objEval (buildModel pDefault) val =
        (pDefault.pairs.map
          (fun wc => pDefault.costs wc.1 wc.2 * val wc.1 wc.2)).sum) :=
  buildModel_vars_and_objective pDefault (by decide) (by decide)

theorem pyInt_natCast (n : ℕ) : pyInt ((n : ℤ) : ℚ) = (n : ℤ) := by
  unfold pyInt
  rw [if_pos (by positivity)]
  exact Int.floor_intCast _

/-- Over any pair list whose assigned values are non-negative integers, the
objective-style sum of cost times value equals the sum of the line costs of
the rows the result loop keeps: a zero value contributes zero to the left
and no row to the right, and a positive value n contributes cost * n to
both sides. -/
theorem sum_cost_eq_sum_lineCost (p : Problem) (val : Assignment)
    (L : List (String × String))
    (h : ∀ wc ∈ L, ∃ n : ℕ, val wc.1 wc.2 = ((n : ℤ) : ℚ)) :
    (L.map (fun wc => p.costs wc.1 wc.2 * val wc.1 wc.2)).sum =
    ((L.filterMap (rowRecord p val)).map ShipRecord.lineCost).sum := by
  induction L with
  | nil => simp
  | cons wc t ih =>
      obtain ⟨n, hn⟩ := h wc (List.mem_cons_self wc t)
      have ht := ih (fun a ha => h a (List.mem_cons_of_mem wc ha))
      have hpy : pyInt (val wc.1 wc.2) = (n : ℤ) := by rw [hn, pyInt_natCast]
      by_cases hz : (n : ℤ) = 0
      · have hrow : rowRecord p val wc = none := by
          unfold rowRecord
          rw [hpy, hz]
          simp
        simp only [List.map_cons, List.sum_cons, List.filterMap_cons, hrow, ht,
          hn, hz]
        simp
      · have hpos : 0 < (n : ℤ) := lt_of_le_of_ne (Int.ofNat_nonneg n)
          (fun hne => hz hne.symm)
        have hrow : rowRecord p val wc =
            some ⟨wc.1, wc.2, (n : ℤ), p.costs wc.1 wc.2,
                  ((n : ℤ) : ℚ) * p.costs wc.1 wc.2⟩ := by
          unfold rowRecord
          rw [hpy]
          simp [hpos]
        simp only [List.map_cons, List.sum_cons, List.filterMap_cons, hrow, ht,
          hn]
        ring_nf

/-- Every row in the result table carries lineCost = unitsShipped times
unitCost, by construction of the loop body. -/
theorem resultData_lineCost (p : Problem) (val : Assignment) :
    ∀ r ∈ resultData p val, r.lineCost = (r.unitsShipped : ℚ) * r.unitCost := by
  intro r hr
  obtain ⟨wc, _, hrow⟩ := List.mem_filterMap.mp hr
  unfold rowRecord at hrow
  by_cases hpos : 0 < pyInt (val wc.1 wc.2)
  · rw [if_pos hpos] at hrow
    cases hrow
    rfl
  · rw [if_neg hpos] at hrow
    cases hrow

/-- C3: on an Optimal solve whose assignment is integral (as the integer
variables guarantee), the reported total cost — the objective value — equals
the sum of the returned rows' line costs, each of which is unitsShipped
times unitCost.  In the rational embedding the equality is exact. -/
theorem totalCost_eq_sum_lineCost (p : Problem) (status : String)
    (val : Assignment) (hst : status = "Optimal")
    (hint : ∀ wc ∈ p.pairs, ∃ n : ℕ, val wc.1 wc.2 = ((n : ℤ) : ℚ)) :
    interpret p status val = some (resultData p val, totalCost p val) ∧
    totalCost p val = ((resultData p val).map ShipRecord.lineCost).sum ∧
    (∀ r ∈ resultData p val,
      r.lineCost = (r.unitsShipped : ℚ) * r.unitCost) := by
  refine ⟨by simp [interpret, hst], ?_, resultData_lineCost p val⟩
  have hobj : totalCost p val =
      (p.pairs.map (fun wc => p.costs wc.1 wc.2 * val wc.1 wc.2)).sum := by
    simp [totalCost, objEval, buildModel, List.map_map, Function.comp_def,
      mul_comm]
  rw [hobj]
  exact sum_cost_eq_sum_lineCost p val p.pairs hint

/-- Assignment used by several witnesses: 80 units on every pair. -/
def valEighty : Assignment := fun _ _ => ((80 : ℤ) : ℚ)

/-- Witness for C3: the default two-by-two instance with 80 units shipped on
every lane. -/
theorem totalCost_eq_sum_lineCost_witness :
    interpret pDefault "Optimal" valEighty =
      some (resultData pDefault valEighty, totalCost pDefault valEighty) ∧
    totalCost pDefault valEighty =
      ((resultData pDefault valEighty).map ShipRecord.lineCost).sum ∧
    (∀ r ∈ resultData pDefault valEighty,
      r.lineCost = (r.unitsShipped : ℚ) * r.unitCost) :=
  totalCost_eq_sum_lineCost pDefault "Optimal" valEighty rfl
    (fun _ _ => ⟨80, rfl⟩)

/-- C4: on an Optimal solve, the plan contains a row for a (warehouse,
customer) pair of the instance exactly when that pair's shipped unit count —
`int(pulp.value(x[w][c]))` — is strictly positive; zero-flow pairs yield no
row at all. -/
theorem resultData_mem_iff_pos (p : Problem) (status : String)
    (val : Assignment) (hst : status = "Optimal") (w c : String)
    (hwc : (w, c) ∈ p.pairs) :
    interpret p status val = some (resultData p val, totalCost p val) ∧
    ((∃ r ∈ resultData p val, r.warehouse = w ∧ r.customer = c) ↔
      0 < pyInt (val w c)) := by
  refine ⟨by simp [interpret, hst], ?_, ?_⟩
  · rintro ⟨r, hr, hrw, hrc⟩
    obtain ⟨wc0, _, hrow⟩ := List.mem_filterMap.mp hr
    unfold rowRecord at hrow
    by_cases hpos : 0 < pyInt (val wc0.1 wc0.2)
    · rw [if_pos hpos] at hrow
      cases hrow
      rw [← hrw, ← hrc]
      exact hpos
    · rw [if_neg hpos] at hrow
      cases hrow
  · intro hpos
    refine ⟨⟨w, c, pyInt (val w c), p.costs w c,
      (pyInt (val w c) : ℚ) * p.costs w c⟩, ?_, rfl, rfl⟩
    refine List.mem_filterMap.mpr ⟨(w, c), hwc, ?_⟩
    unfold rowRecord
    rw [if_pos hpos]

/-- Witness for C4 at the default instance: the pair (W1, C1) with 80 units
on every lane is reported. -/
theorem resultData_mem_iff_pos_witness :
    interpret pDefault "Optimal" valEighty =
      some (resultData pDefault valEighty, totalCost pDefault valEighty) ∧
    ((∃ r ∈ resultData pDefault valEighty,
        r.warehouse = "W1" ∧ r.customer = "C1") ↔
      0 < pyInt (valEighty "W1" "C1")) :=
  resultData_mem_iff_pos pDefault "Optimal" valEighty rfl "W1" "C1" (by decide)

/-- C5: on a non-Optimal status the engine returns no plan, and the outcome
does not depend on the variable assignment at all — no decision-variable
value is read. -/
theorem interpret_non_optimal (p : Problem) (status : String)
    (h : status ≠ "Optimal") :
    (∀ val : Assignment, interpret p status val = none) ∧
    (∀ val1 val2 : Assignment,
      interpret p status val1 = interpret p status val2) := by
  constructor
  · intro val
    simp [interpret, h]
  · intro val1 val2
    simp [interpret, h]

/-- Witness for C5 with the Infeasible status string. -/
theorem interpret_non_optimal_witness :
    (∀ val : Assignment, interpret pDefault "Infeasible" val = none) ∧
    (∀ val1 val2 : Assignment,
      interpret pDefault "Infeasible" val1 =
        interpret pDefault "Infeasible" val2) :=
  interpret_non_optimal pDefault "Infeasible" (by decide)

/-- C6: every failure of the model build / submit / solve block surfaces as
the error banner carrying the exception's message, and the error banner
appears only for such failures — no failure escapes the handler (the handler
is a total function into the three displayed outcomes). -/
theorem optimizeClick_catches_all (p : Problem)
    (r : Except String (String × Assignment)) :
    (∀ e, r = Except.error e →
      optimizeClick p r = UIOutcome.errorShown ("⚠️ Error: " ++ e)) ∧
    ((∃ m, optimizeClick p r = UIOutcome.errorShown m) →
      ∃ e, r = Except.error e) := by
  constructor
  · intro e he
    rw [he]
    rfl
  · rintro ⟨m, hm⟩
    match r with
    | Except.error e => exact ⟨e, rfl⟩
    | Except.ok sv =>
        exfalso
        have hm2 : (match interpret p sv.1 sv.2 with
            | some rc => UIOutcome.optimalShown rc.1 rc.2
            | none => UIOutcome.warningShown
                "Solver did not find an optimal solution.") =
            UIOutcome.errorShown m := hm
        cases hi : interpret p sv.1 sv.2 with
        | some rc =>
            rw [hi] at hm2
            exact UIOutcome.noConfusion hm2
        | none =>
            rw [hi] at hm2
            exact UIOutcome.noConfusion hm2

/-- Witness for C6: a solver fault with a concrete message is shown as the
error banner. -/
theorem optimizeClick_catches_all_witness :
    (∀ e, (Except.error "Pulp: cannot execute cbc" :
        Except String (String × Assignment)) = Except.error e →
      optimizeClick pDefault (Except.error "Pulp: cannot execute cbc") =
        UIOutcome.errorShown ("⚠️ Error: " ++ e)) ∧
    ((∃ m, optimizeClick pDefault (Except.error "Pulp: cannot execute cbc") =
        UIOutcome.errorShown m) →
      ∃ e, (Except.error "Pulp: cannot execute cbc" :
        Except String (String × Assignment)) = Except.error e) :=
  optimizeClick_catches_all pDefault (Except.error "Pulp: cannot execute cbc")

/-- C7: when total capacity falls short of total demand the built model is
infeasible, so any adequate solver answer is the Infeasible status; the
engine then returns no plan, and the builder has still emitted the full
constraint set (one row per warehouse and per customer) — it performs no
aggregate feasibility check. -/
theorem capacity_short_infeasible (p : Problem) (status : String)
    (val : Assignment) (hcap : totalCapacity p < totalDemand p)
    (hs : solverStatusOk (buildModel p) status) :
    status = "Infeasible" ∧ interpret p status val = none ∧
    (buildModel p).constraints.length =
      p.warehouses.length + p.customers.length := by
  have hnotsat : ¬ ModelSat (buildModel p) := by
    intro hsat
    exact absurd (modelSat_demand_le_capacity p hsat) (not_le.mpr hcap)
  have hnopt : status ≠ "Optimal" := fun h => hnotsat (hs.2.mp h)
  have hinf : status = "Infeasible" := by
    rcases hs.1 with h | h
    · exact absurd h hnopt
    · exact h
  refine ⟨hinf, ?_, ?_⟩
  · rw [hinf]
    simp [interpret]
  · simp [buildModel]

/-- The capacity-short single-lane instance of spec scenario 2: one
warehouse of capacity 50, one customer demanding 80. -/
def pShort : Problem :=
  { warehouses := ["W1"]
    capacity := fun _ => 50
    customers := ["C1"]
    demand := fun _ => 80
    costs := fun _ _ => 4 }

/-- Witness for C7 at the capacity-short instance, with the status a correct
solver must report there. -/
theorem capacity_short_infeasible_witness :
    "Infeasible" = "Infeasible" ∧
    interpret pShort "Infeasible" valEighty = none ∧
    (buildModel pShort).constraints.length =
      pShort.warehouses.length + pShort.customers.length :=
  capacity_short_infeasible pShort "Infeasible" valEighty
    (by norm_num [totalCapacity, totalDemand, pShort])
    (by
      constructor
      · exact Or.inr rfl
      · constructor
        · intro h
          exact absurd h (by decide)
        · intro hsat
          exfalso
          have hle := modelSat_demand_le_capacity pShort hsat
          rw [show totalDemand pShort = 80 from by
                norm_num [totalDemand, pShort],
              show totalCapacity pShort = 50 from by
                norm_num [totalCapacity, pShort]] at hle
          norm_num at hle)

theorem flatMap_nil_fun {α β : Type} (l : List α) :
    (l.flatMap (fun _ => ([] : List β))) = [] := by
  induction l with
  | nil => rfl
  | cons a t ih => simp [ih]

theorem pairs_degenerate (p : Problem)
    (h : p.customers = [] ∨ p.warehouses = []) : p.pairs = [] := by
  unfold Problem.pairs
  rcases h with h | h
  · rw [h]
    simp only [List.map_nil]
    exact flatMap_nil_fun p.warehouses
  · rw [h]
    rfl

/-- A model over an empty customer list, or over an empty warehouse list
with all demands zero, is satisfied by the all-zero assignment. -/
theorem degenerate_modelSat (p : Problem)
    (h : p.customers = [] ∨
      (p.warehouses = [] ∧ ∀ c ∈ p.customers, p.demand c = 0)) :
    ModelSat (buildModel p) := by
  refine ⟨fun _ _ => 0, ?_, ?_⟩
  · intro wc _
    exact ⟨le_refl 0, fun _ => ⟨0, by norm_num⟩⟩
  · intro con hcon
    unfold buildModel at hcon
    rcases List.mem_append.mp hcon with hsup | hdem
    · obtain ⟨w, hwmem, hw⟩ := List.mem_map.mp hsup
      rw [← hw]
      unfold conHolds conLHS
      simp only [List.map_map]
      rcases h with hc | ⟨hwl, _⟩
      · rw [hc]
        simp
      · rw [hwl] at hwmem
        cases hwmem
    · obtain ⟨c, hcmem, hc⟩ := List.mem_map.mp hdem
      rw [← hc]
      unfold conHolds conLHS
      rcases h with hcl | ⟨hwl, hdz⟩
      · rw [hcl] at hcmem
        cases hcmem
      · rw [hwl]
        simp [hdz c hcmem]

/-- The claim of spec §4.1/§8 instantiated at one problem: any adequate
solver answer yields status Optimal, an empty plan and total cost 0. -/
def claimC8At (p : Problem) : Prop :=
  ∀ status : String, ∀ val : Assignment,
    solverStatusOk (buildModel p) status →
    status = "Optimal" ∧ interpret p status val = some ([], 0)

/-- A zero-warehouse instance with one customer demanding 80 units. -/
def p8 : Problem :=
  { warehouses := []
    capacity := fun _ => 0
    customers := ["C1"]
    demand := fun _ => 80
    costs := fun _ _ => 4 }

/-- Counterexample to C8 as stated: with zero warehouses but a customer
demanding 80, the built model carries the constraint 0 = 80, so it is
infeasible and an adequate solver reports Infeasible, not Optimal. -/
theorem zero_warehouses_not_optimal_cex :
    p8.warehouses = [] ∧ ¬ claimC8At p8 := by
  refine ⟨rfl, ?_⟩
  intro h
  have hnotsat : ¬ ModelSat (buildModel p8) := by
    intro hsat
    have hle := modelSat_demand_le_capacity p8 hsat
    rw [show totalDemand p8 = 80 from by norm_num [totalDemand, p8],
        show totalCapacity p8 = 0 from by norm_num [totalCapacity, p8]] at hle
    norm_num at hle
  have hok : solverStatusOk (buildModel p8) "Infeasible" := by
    refine ⟨Or.inr rfl, ?_, ?_⟩
    · intro habs
      exact absurd habs (by decide)
    · intro hsat
      exact absurd hsat hnotsat
  exact absurd ((h "Infeasible" (fun _ _ => 0) hok).1) (by decide)

/-- C8 as amended: an input with zero customers, or with zero warehouses and
every customer demand zero, yields a degenerate feasible model, so an
adequate solver reports Optimal and the engine returns the empty plan with
total cost 0. (As stated the claim fails: zero warehouses with a positive
demand make the model infeasible; see the counterexample.) -/
theorem degenerate_input_optimal (p : Problem) (status : String)
    (val : Assignment)
    (h : p.customers = [] ∨
      (p.warehouses = [] ∧ ∀ c ∈ p.customers, p.demand c = 0))
    (hs : solverStatusOk (buildModel p) status) :
    status = "Optimal" ∧ interpret p status val = some ([], 0) := by
  have hsat : ModelSat (buildModel p) := degenerate_modelSat p h
  have hopt : status = "Optimal" := hs.2.mpr hsat
  have hnil : p.pairs = [] :=
    pairs_degenerate p (h.imp id (fun hh => hh.1))
  refine ⟨hopt, ?_⟩
  rw [hopt]
  unfold interpret resultData totalCost objEval buildModel
  rw [if_pos rfl, hnil]
  rfl

/-- A one-warehouse, zero-customer instance. -/
def p8w : Problem :=
  { warehouses := ["W1"]
    capacity := fun _ => 100
    customers := []
    demand := fun _ => 0
    costs := fun _ _ => 4 }

/-- Witness for the amended C8 at the zero-customer instance. -/
theorem degenerate_input_optimal_witness :
    "Optimal" = "Optimal" ∧
    interpret p8w "Optimal" valEighty = some ([], 0) :=
  degenerate_input_optimal p8w "Optimal" valEighty (Or.inl rfl)
    ⟨Or.inl rfl, fun _ => degenerate_modelSat p8w (Or.inl rfl), fun _ => rfl⟩

/-- A one-lane instance for the rounding counterexample: demand 8, cost 4. -/
def p9 : Problem :=
  { warehouses := ["W1"]
    capacity := fun _ => 100
    customers := ["C1"]
    demand := fun _ => 8
    costs := fun _ _ => 4 }

/-- A solver value with residual floating noise just below the integer 8. -/
def val9 : Assignment := fun _ _ => (7999999 : ℚ) / 1000000

/-- Counterexample to C9 as stated: at the solver value 7.999999 the code's
`int()` conversion keeps 7 units, while rounding to the nearest integer
gives 8 — the conversion is truncation toward zero, not round-to-nearest. -/
theorem int_cast_not_round_cex :
    resultData p9 val9 = [⟨"W1", "C1", 7, 4, 28⟩] ∧
    round (val9 "W1" "C1") = 8 ∧ (7 : ℤ) ≠ 8 := by
  have hval : val9 "W1" "C1" = (7999999 : ℚ) / 1000000 := rfl
  have hpy : pyInt ((7999999 : ℚ) / 1000000) = 7 := by
    unfold pyInt
    rw [if_pos (by norm_num)]
    rw [Int.floor_eq_iff]
    norm_num
  refine ⟨?_, ?_, by decide⟩
  · have hpairs : p9.pairs = [("W1", "C1")] := rfl
    have hrow : rowRecord p9 val9 ("W1", "C1") =
        some ⟨"W1", "C1", 7, 4, 28⟩ := by
      unfold rowRecord
      rw [show val9 ("W1", "C1").1 ("W1", "C1").2 =
        (7999999 : ℚ) / 1000000 from rfl, hpy]
      norm_num
      exact ⟨rfl, by rw [show p9.costs "W1" "C1" = 4 from rfl]; norm_num⟩
    unfold resultData
    rw [hpairs]
    simp [List.filterMap_cons, hrow]
  · rw [hval, round_eq]
    rw [show (7999999 : ℚ) / 1000000 + 1 / 2 = 8499999 / 1000000 from by
      norm_num]
    rw [Int.floor_eq_iff]
    norm_num

/-- C9 as amended: on an Optimal solve each row's unit count is obtained
from the solver value by the `int()` cast — truncation toward zero, i.e.
the floor of the non-negative values, always an integer and never a
fractional display value — and only positive counts produce rows. -/
theorem resultData_truncates (p : Problem) (status : String)
    (val : Assignment) (hst : status = "Optimal") :
    interpret p status val = some (resultData p val, totalCost p val) ∧
    (∀ r ∈ resultData p val, ∃ wc ∈ p.pairs,
        r.warehouse = wc.1 ∧ r.customer = wc.2 ∧
        r.unitsShipped = pyInt (val wc.1 wc.2) ∧ 0 < r.unitsShipped) ∧
    (∀ q : ℚ, 0 ≤ q →
        ((pyInt q : ℚ) ≤ q ∧ q < (pyInt q : ℚ) + 1)) := by
  refine ⟨by simp [interpret, hst], ?_, ?_⟩
  · intro r hr
    obtain ⟨wc, hwc, hrow⟩ := List.mem_filterMap.mp hr
    unfold rowRecord at hrow
    by_cases hpos : 0 < pyInt (val wc.1 wc.2)
    · rw [if_pos hpos] at hrow
      cases hrow
      exact ⟨wc, hwc, rfl, rfl, rfl, hpos⟩
    · rw [if_neg hpos] at hrow
      cases hrow
  · intro q hq
    have hfl : pyInt q = ⌊q⌋ := by unfold pyInt; rw [if_pos hq]
    rw [hfl]
    exact ⟨Int.floor_le q, Int.lt_floor_add_one q⟩

/-- Witness for the amended C9 at the noisy one-lane instance. -/
theorem resultData_truncates_witness :
    interpret p9 "Optimal" val9 =
      some (resultData p9 val9, totalCost p9 val9) ∧
    (∀ r ∈ resultData p9 val9, ∃ wc ∈ p9.pairs,
        r.warehouse = wc.1 ∧ r.customer = wc.2 ∧
        r.unitsShipped = pyInt (val9 wc.1 wc.2) ∧ 0 < r.unitsShipped) ∧
    (∀ q : ℚ, 0 ≤ q →
        ((pyInt q : ℚ) ≤ q ∧ q < (pyInt q : ℚ) + 1)) :=
  resultData_truncates p9 "Optimal" val9 rfl

/-- C10: whatever count the operator enters, the input widgets keep it
within 1 and 10, so every built model ranges over between 1 and 10
warehouses and between 1 and 10 customers, with one decision variable per
pair. -/
theorem problemFromUI_entity_bounds (uw uc : ℤ) (wname cname : ℕ → String)
    (cap dem : String → ℕ) (cost : String → String → ℚ) :
    1 ≤ (problemFromUI uw uc wname cname cap dem cost).warehouses.length ∧
    (problemFromUI uw uc wname cname cap dem cost).warehouses.length ≤ 10 ∧
    1 ≤ (problemFromUI uw uc wname cname cap dem cost).customers.length ∧
    (problemFromUI uw uc wname cname cap dem cost).customers.length ≤ 10 ∧
    (buildModel (problemFromUI uw uc wname cname cap dem cost)).vars.length =
      (problemFromUI uw uc wname cname cap dem cost).warehouses.length *
      (problemFromUI uw uc wname cname cap dem cost).customers.length := by
  have hb : ∀ v : ℤ, 1 ≤ (numberInput 1 10 v).toNat ∧
      (numberInput 1 10 v).toNat ≤ 10 := by
    intro v
    have h1 : (1 : ℤ) ≤ numberInput 1 10 v := le_max_left _ _
    have h2 : numberInput 1 10 v ≤ 10 :=
      max_le (by norm_num) (min_le_right _ _)
    omega
  have hlw : (problemFromUI uw uc wname cname cap dem cost).warehouses.length =
      (numberInput 1 10 uw).toNat := by
    simp [problemFromUI]
  have hlc : (problemFromUI uw uc wname cname cap dem cost).customers.length =
      (numberInput 1 10 uc).toNat := by
    simp [problemFromUI]
  refine ⟨?_, ?_, ?_, ?_, ?_⟩
  · rw [hlw]; exact (hb uw).1
  · rw [hlw]; exact (hb uw).2
  · rw [hlc]; exact (hb uc).1
  · rw [hlc]; exact (hb uc).2
  · exact pairs_length _

end MILP
